import Mathlib

/-!
Verification development for the K-Means clustering core of the
ORA-Clustering-Worker repository (`src/lib/kmeans.ts`), shallowly embedded
in Lean 4.

Modelling conventions:

* JavaScript numbers (IEEE-754 doubles) are modelled as exact rationals `ℚ`.
  The properties settled here are structural and order-theoretic, so exact
  arithmetic is the faithful idealisation; rounding error is out of scope.
* `Math.sqrt`: the source's `euclideanDistance` returns `√(Σ (aᵢ-bᵢ)²)`.
  That value is only ever (a) compared against another such value
  (`assignToCentroid`, `Math.min` in seeding) and (b) squared
  (`minDist * minDist`, the seeding weights).  Since `√` is strictly
  monotone on `[0, ∞)` and `(√x)² = x` there, the embedding works with the
  squared distances (`euclideanDistanceSq`) throughout: every comparison and
  every weight is exactly the one the source computes.
* `Math.random()` is modelled as an injected stream `rng : Nat → ℚ` with a
  cursor `pos` threaded through the computation; theorems assume draws lie
  in `[0, 1)` where the source relies on `Math.random`'s contract.
* Out-of-range array reads: JavaScript yields `undefined` (and then `NaN`
  arithmetic); the embedding totalises such reads with `List.getD` defaults.
  No theorem below depends on the numeric value of an out-of-range read;
  call sites reached by the claims stay in range.
-/

namespace KMeansWorker

/-- A vector of the source (`number[]`), as a list of rationals. -/
abbrev Vec := List ℚ

/-- The square of the source's `euclideanDistance(a, b)`: the sum of squared
componentwise differences, looping over `a.length` exactly as the source
does.  The source returns the square root of this sum; the root is dropped
here because it is strictly monotone (see the header notes). -/
def euclideanDistanceSq (a b : Vec) : ℚ :=
  ((List.range a.length).map (fun i => (a.getD i 0 - b.getD i 0) ^ 2)).sum

/-- Embedding of the source's `cosineSimilarity(a, b)`: accumulates the dot
product and the two squared norms over `a.length` iterations, then returns
`0` when the magnitude `√normA · √normB` is zero and the quotient otherwise.
`Rat.sqrt` stands in for `Math.sqrt`; only the zero test of the magnitude
matters to the claims below, and `Rat.sqrt x = 0 ↔ x = 0` for `x ≥ 0`,
exactly as for the real square root. -/
def cosineSimilarity (a b : Vec) : ℚ :=
  let dotProduct := ((List.range a.length).map (fun i => a.getD i 0 * b.getD i 0)).sum
  let normA := ((List.range a.length).map (fun i => a.getD i 0 ^ 2)).sum
  let normB := ((List.range a.length).map (fun i => b.getD i 0 ^ 2)).sum
  let magnitude := Rat.sqrt normA * Rat.sqrt normB
  if magnitude = 0 then 0 else dotProduct / magnitude

/-- Scan state of the source's `assignToCentroid` loop: remaining centroids,
index of the next centroid, best (squared) distance so far, best index so
far.  The source compares with strict `<`, so the first minimum wins. -/
def assignGo (v : Vec) : List Vec → Nat → ℚ → Nat → Nat
  | [], _, _, best => best
  | c :: cs, i, minDist, best =>
    let dist := euclideanDistanceSq v c
    if dist < minDist then assignGo v cs (i + 1) dist i
    else assignGo v cs (i + 1) minDist best

/-- Embedding of the source's `assignToCentroid(vector, centroids)`.  The
source starts from `minDist = Infinity, assignment = 0`; the first centroid
always beats `Infinity`, so after one step the state is
`(dist(v, c₀), 0)`, which is where `assignGo` starts.  An empty centroid
list leaves the initial `assignment = 0`, as in the source. -/
def assignToCentroid (v : Vec) (centroids : List Vec) : Nat :=
  match centroids with
  | [] => 0
  | c :: cs => assignGo v cs 1 (euclideanDistanceSq v c) 0

/-- Embedding of `Math.floor(r * n)`, used by the source to draw a random
index into an `n`-element array from a draw `r` of `Math.random()`. -/
def randFloor (r : ℚ) (n : Nat) : Nat := (⌊r * (n : ℚ)⌋).toNat

/-- The seeding weight the source computes for a vector `v`:
`Math.min(...centroids.map(c => euclideanDistance(v, c)))` squared, i.e. the
minimum squared distance to an already-chosen centroid (minimum and
squaring commute with `√`).  The default `0` is never used: every call site
passes a nonempty centroid list. -/
def minSqDistToCentroids (v : Vec) (centroids : List Vec) : ℚ :=
  ((centroids.map (fun c => euclideanDistanceSq v c)).min?).getD 0

/-- The source's inner selection loop in `initializeCentroids`: walk the
weight list, subtracting each weight from the running threshold `r`, and
return the index at which the threshold first drops to `≤ 0`; `none` when
the loop falls off the end without selecting (then the source pushes no
centroid for this round). -/
def pickIndex : List ℚ → ℚ → Option Nat
  | [], _ => none
  | d :: ds, r => if r - d ≤ 0 then some 0 else (pickIndex ds (r - d)).map (fun j => j + 1)

/-- The source's outer `for (let i = 1; i < k; i++)` loop of
`initializeCentroids`, with `m` rounds remaining: recompute all weights
against the current centroids, draw `r = Math.random() * totalDist`, and
append a copy of the selected vector when the selection loop picks one. -/
def seedLoop (vectors : List Vec) (rng : Nat → ℚ) : Nat → List Vec → Nat → List Vec × Nat
  | 0, centroids, pos => (centroids, pos)
  | m + 1, centroids, pos =>
    let distances := vectors.map (fun v => minSqDistToCentroids v centroids)
    let totalDist := distances.sum
    let r := rng pos * totalDist
    match pickIndex distances r with
    | some j => seedLoop vectors rng m (centroids ++ [vectors.getD j []]) (pos + 1)
    | none => seedLoop vectors rng m centroids (pos + 1)

/-- Embedding of the source's `initializeCentroids(vectors, k)` (K-Means++
seeding): one uniformly random first centroid, then `k - 1` weighted
rounds.  Returns the centroids together with the advanced rng cursor. -/
def initializeCentroids (vectors : List Vec) (k : Nat) (rng : Nat → ℚ) (pos : Nat) :
    List Vec × Nat :=
  let firstIdx := randFloor (rng pos) vectors.length
  seedLoop vectors rng (k - 1) [vectors.getD firstIdx []] (pos + 1)

/-- One elementwise accumulation step of `recalculateCentroids`:
`for (let d = 0; d < dim; d++) sums[cluster][d] += vectors[i][d]`. -/
def addVec (dim : Nat) (s v : Vec) : Vec :=
  (List.range dim).map (fun d => s.getD d 0 + v.getD d 0)

/-- The first loop of the source's `recalculateCentroids`: fold over the
vectors paired with their assignments, bumping `counts[cluster]` and adding
the vector into `sums[cluster]`.  `List.set` is a no-op out of range, which
is only reachable with an out-of-range assignment the driver never
produces. -/
def accumulate (dim : Nat) : List (Vec × Nat) → List Nat × List Vec → List Nat × List Vec
  | [], st => st
  | (v, cluster) :: rest, (counts, sums) =>
    accumulate dim rest
      (counts.set cluster (counts.getD cluster 0 + 1),
       sums.set cluster (addVec dim (sums.getD cluster []) v))

/-- The second loop of the source's `recalculateCentroids`, with `m` cluster
indices remaining starting at `i`: a populated cluster gets the mean of its
members, an empty cluster gets a copy of a random input vector (consuming
one rng draw). -/
def buildCentroids (vectors : List Vec) (rng : Nat → ℚ) (counts : List Nat) (sums : List Vec) :
    Nat → Nat → Nat → List Vec × Nat
  | _, 0, pos => ([], pos)
  | i, m + 1, pos =>
    if 0 < counts.getD i 0 then
      let c := (sums.getD i []).map (fun s => s / (counts.getD i 0 : ℚ))
      let rest := buildCentroids vectors rng counts sums (i + 1) m pos
      (c :: rest.1, rest.2)
    else
      let randomIdx := randFloor (rng pos) vectors.length
      let rest := buildCentroids vectors rng counts sums (i + 1) m (pos + 1)
      (vectors.getD randomIdx [] :: rest.1, rest.2)

/-- Embedding of the source's `recalculateCentroids(vectors, assignments, k, dim)`,
returning the new centroid list and the advanced rng cursor. -/
def recalculateCentroids (vectors : List Vec) (assignments : List Nat) (k dim : Nat)
    (rng : Nat → ℚ) (pos : Nat) : List Vec × Nat :=
  let st := accumulate dim (vectors.zip assignments)
    (List.replicate k 0, List.replicate k (List.replicate dim 0))
  buildCentroids vectors rng st.1 st.2 0 k pos

/-- The source's convergence counter: how many of the `n` positions changed
between the previous and the new assignment. -/
def countChanged (n : Nat) (newAssignments assignments : List Nat) : Nat :=
  (List.range n).countP (fun i => decide (newAssignments.getD i 0 ≠ assignments.getD i 0))

/-- The source's `for (let iter = 0; iter < maxIterations; iter++)` loop,
with `fuel` iterations remaining and `iterDone` iterations already
executed: reassign every vector, count changes, stop (keeping the current
centroids and the new assignment) when `changed / n < tolerance`, otherwise
recompute centroids and continue.  Returns
`(centroids, assignments, iterations)`. -/
def kmeansLoop (vectors : List Vec) (k dim : Nat) (tolerance : ℚ) (n : Nat) (rng : Nat → ℚ) :
    Nat → List Vec → List Nat → Nat → Nat → List Vec × List Nat × Nat
  | 0, centroids, assignments, iterDone, _ => (centroids, assignments, iterDone)
  | fuel + 1, centroids, assignments, iterDone, pos =>
    let newAssignments := vectors.map (fun v => assignToCentroid v centroids)
    let changed := countChanged n newAssignments assignments
    if ((changed : ℚ) / (n : ℚ)) < tolerance then
      (centroids, newAssignments, iterDone + 1)
    else
      let rc := recalculateCentroids vectors newAssignments k dim rng pos
      kmeansLoop vectors k dim tolerance n rng fuel rc.1 newAssignments (iterDone + 1) rc.2

/-- The source's `KMeansOptions`: `k` with optional `maxIterations`
(default 100) and `tolerance` (default 0.0001). -/
structure KMeansOptions where
  k : Nat
  maxIterations : Option Nat
  tolerance : Option ℚ
deriving DecidableEq

/-- The source's `ClusterResult`. -/
structure ClusterResult where
  centroids : List Vec
  assignments : List Nat
  iterations : Nat
deriving DecidableEq

/-- The failure modes of `kMeansClustering`.  `insufficientData n k` is the
source's `throw new Error(\x60Not enough vectors (n) for k clusters\x60)`;  `typeError` is
the JavaScript `TypeError` raised by `vectors[0].length` when the input
array is empty (reading `.length` of `undefined`), which in the source
happens before the `n < k` check is reached. -/
inductive KMeansError where
  | typeError
  | insufficientData (n k : Nat)
deriving DecidableEq

/-- Embedding of the source's `kMeansClustering(vectors, options)`.  Order
of effects follows the source exactly: destructure options, read
`vectors[0].length` (throws `typeError` on empty input), check `n < k`
(throws `insufficientData`), then seed and iterate. -/
def kMeansClustering (vectors : List Vec) (options : KMeansOptions) (rng : Nat → ℚ) :
    Except KMeansError ClusterResult :=
  let k := options.k
  let maxIterations := options.maxIterations.getD 100
  let tolerance := options.tolerance.getD (1 / 10000)
  let n := vectors.length
  match vectors with
  | [] => Except.error KMeansError.typeError
  | v0 :: _ =>
    let dim := v0.length
    if n < k then Except.error (KMeansError.insufficientData n k)
    else
      let init := initializeCentroids vectors k rng 0
      let out := kmeansLoop vectors k dim tolerance n rng maxIterations
        init.1 (List.replicate n 0) 0 init.2
      Except.ok ⟨out.1, out.2.1, out.2.2⟩

/-- One entry of the source's representative output:
`{ cluster, posts: [post], similarity }`. -/
structure Representative (α : Type) where
  cluster : Nat
  posts : List α
  similarity : ℚ
deriving DecidableEq

/-- Embedding of the source's `getClusterRepresentatives`: for each cluster
index `c`, collect the `(post, similarity)` pairs of the members assigned
to `c` (the source loops `i` over `posts.length` and tests
`assignments[i] === c`; an out-of-range read of `assignments[i]` is
`undefined` and never equal to `c`, which `assignments[i]? = some c`
captures exactly), sort them descending by similarity with a stable merge
sort (JavaScript's comparator `b.similarity - a.similarity`), and keep the
first `topN`. -/
def getClusterRepresentatives {α : Type} [Inhabited α] (vectors : List Vec) (posts : List α)
    (centroids : List Vec) (assignments : List Nat) (topN : Nat) :
    List (List (Representative α)) :=
  (List.range centroids.length).map (fun c =>
    let clusterPosts := (List.range posts.length).filterMap (fun i =>
      if assignments[i]? = some c then
        some (posts.getD i default, cosineSimilarity (vectors.getD i []) (centroids.getD c []))
      else none)
    let sortedPosts := List.mergeSort clusterPosts (fun x y => decide (y.2 ≤ x.2))
    (sortedPosts.take topN).map (fun cp => ⟨c, [cp.1], cp.2⟩))

/-- The number of members the source's representative loop collects for
cluster `c`: indices `i` below `posts.length` with `assignments[i] = c`. -/
def memberCount {α : Type} (posts : List α) (assignments : List Nat) (c : Nat) : Nat :=
  (List.range posts.length).countP (fun i => decide (assignments[i]? = some c))

end KMeansWorker

namespace KMeansWorker

/-! Helper lemmas about the driver loop. -/

/-- The iteration counter the loop returns is at most `iterDone + fuel`, and at
least `iterDone + 1` as soon as at least one iteration remains. -/
lemma kmeansLoop_iterations_bounds (vectors : List Vec) (k dim : Nat) (tolerance : ℚ)
    (n : Nat) (rng : Nat → ℚ) :
    ∀ (fuel : Nat) (centroids : List Vec) (assignments : List Nat) (iterDone pos : Nat),
      (kmeansLoop vectors k dim tolerance n rng fuel centroids assignments iterDone pos).2.2
          ≤ iterDone + fuel ∧
        (1 ≤ fuel → iterDone + 1 ≤
          (kmeansLoop vectors k dim tolerance n rng fuel centroids assignments iterDone pos).2.2) := by
  intro fuel
  induction fuel with
  | zero => intro c a i pos; simp [kmeansLoop]
  | succ m ih =>
    intro c a i pos
    simp only [kmeansLoop]
    split
    · exact ⟨by simp, fun _ => by simp⟩
    · obtain ⟨h1, h2⟩ := ih
        (recalculateCentroids vectors (List.map (fun v => assignToCentroid v c) vectors)
          k dim rng pos).1
        (List.map (fun v => assignToCentroid v c) vectors) (i + 1)
        (recalculateCentroids vectors (List.map (fun v => assignToCentroid v c) vectors)
          k dim rng pos).2
      refine ⟨by omega, fun _ => ?_⟩
      cases m with
      | zero => simp [kmeansLoop]
      | succ m' => exact le_trans (by omega) (h2 (by omega))

/-- With `tolerance = 0` the convergence test `changed / n < 0` never passes
(the quotient of two nonnegative numbers is nonnegative), so the loop always
consumes all its fuel. -/
lemma kmeansLoop_iterations_zero_tol (vectors : List Vec) (k dim : Nat)
    (n : Nat) (rng : Nat → ℚ) :
    ∀ (fuel : Nat) (centroids : List Vec) (assignments : List Nat) (iterDone pos : Nat),
      (kmeansLoop vectors k dim 0 n rng fuel centroids assignments iterDone pos).2.2
        = iterDone + fuel := by
  intro fuel
  induction fuel with
  | zero => intro c a i pos; simp [kmeansLoop]
  | succ m ih =>
    intro c a i pos
    simp only [kmeansLoop]
    rw [if_neg (not_lt.2 (div_nonneg (Nat.cast_nonneg _) (Nat.cast_nonneg _)))]
    rw [ih]
    omega

/-- Whenever the loop stops before exhausting its fuel (which only the
convergence branch can cause), the assignment it returns was computed against
exactly the centroids it returns. -/
lemma kmeansLoop_break_assign_consistent (vectors : List Vec) (k dim : Nat) (tolerance : ℚ)
    (n : Nat) (rng : Nat → ℚ) :
    ∀ (fuel : Nat) (centroids : List Vec) (assignments : List Nat) (iterDone pos : Nat),
      (kmeansLoop vectors k dim tolerance n rng fuel centroids assignments iterDone pos).2.2
          < iterDone + fuel →
        (kmeansLoop vectors k dim tolerance n rng fuel centroids assignments iterDone pos).2.1
          = vectors.map (fun v => assignToCentroid v
              (kmeansLoop vectors k dim tolerance n rng fuel centroids assignments iterDone pos).1) := by
  intro fuel
  induction fuel with
  | zero => intro c a i pos h; simp [kmeansLoop] at h
  | succ m ih =>
    intro c a i pos
    simp only [kmeansLoop]
    split
    · intro _; rfl
    · intro h
      exact ih _ _ (i + 1) _ (by omega)

/-- C1.  Part one: if an iteration's convergence test passes, the loop stops
at once and returns the centroids that were in effect when that iteration's
assignment was computed (no centroid update happens), together with the
just-computed assignment and the incremented iteration count.  Part two: as a
consequence, whenever the loop stopped before exhausting its fuel, the final
assignment is exactly the nearest-centroid assignment against the returned
centroids. -/
theorem kmeansLoop_converged_skips_update (vectors : List Vec) (k dim : Nat) (tolerance : ℚ)
    (n : Nat) (rng : Nat → ℚ) (fuel : Nat) (centroids : List Vec) (assignments : List Nat)
    (iterDone pos : Nat) :
    (((countChanged n (vectors.map (fun v => assignToCentroid v centroids)) assignments : ℚ)
          / (n : ℚ) < tolerance →
        kmeansLoop vectors k dim tolerance n rng (fuel + 1) centroids assignments iterDone pos
          = (centroids, vectors.map (fun v => assignToCentroid v centroids), iterDone + 1)))
    ∧ ((kmeansLoop vectors k dim tolerance n rng fuel centroids assignments iterDone pos).2.2
          < iterDone + fuel →
        (kmeansLoop vectors k dim tolerance n rng fuel centroids assignments iterDone pos).2.1
          = vectors.map (fun v => assignToCentroid v
              (kmeansLoop vectors k dim tolerance n rng fuel centroids assignments iterDone pos).1)) := by
  constructor
  · intro h
    simp only [kmeansLoop]
    rw [if_pos h]
  · exact kmeansLoop_break_assign_consistent vectors k dim tolerance n rng fuel
      centroids assignments iterDone pos

/-- Witness for C1: a concrete converged step.  With centroids `[[0],[10]]`
and previous assignment `[0,1]`, nothing changes, the test `0/2 < 1/2`
passes, and the loop returns the same centroids with the just-computed
assignment and one iteration counted. -/
theorem kmeansLoop_converged_skips_update_witness :
    kmeansLoop [[(0:ℚ)],[10]] 2 1 (1/2) 2 (fun _ => 0) 1 [[0],[10]] [0,1] 0 0
      = ([[0],[10]], [[(0:ℚ)],[10]].map (fun v => assignToCentroid v [[0],[10]]), 1) :=
  (kmeansLoop_converged_skips_update [[(0:ℚ)],[10]] 2 1 (1/2) 2 (fun _ => 0) 0
      [[0],[10]] [0,1] 0 0).1
    (by norm_num [countChanged, assignToCentroid, assignGo, euclideanDistanceSq,
      List.range_succ, List.countP_cons, List.countP_nil])

end KMeansWorker

namespace KMeansWorker

/-- C2 (amended).  With a nonempty input of fewer than `k` vectors the driver
fails with the `InsufficientData` error before any clustering work, and no
partial result is produced (the result is an error, not an `ok`).  With an
empty input the driver also fails before any work, but with the JavaScript
`TypeError` raised by reading `vectors[0].length`, which in the source
happens before the `n < k` test — not with the `InsufficientData` error the
claim states. -/
theorem kMeansClustering_insufficientData (vectors : List Vec) (options : KMeansOptions)
    (rng : Nat → ℚ) :
    (vectors = [] →
      kMeansClustering vectors options rng = Except.error KMeansError.typeError)
    ∧ (vectors ≠ [] → vectors.length < options.k →
      kMeansClustering vectors options rng
        = Except.error (KMeansError.insufficientData vectors.length options.k)) := by
  constructor
  · intro h
    subst h
    rfl
  · intro hne hlt
    obtain ⟨v0, t, rfl⟩ : ∃ v0 t, vectors = v0 :: t := by
      cases vectors with
      | nil => exact absurd rfl hne
      | cons v0 t => exact ⟨v0, t, rfl⟩
    simp only [kMeansClustering]
    rw [if_pos hlt]

/-- Witness for C2: with one vector and `k = 2` the driver reports
`insufficientData 1 2`; with no vectors and `k = 1` it reports the
`typeError` of the dimension read. -/
theorem kMeansClustering_insufficientData_witness :
    kMeansClustering [[(0:ℚ)]] ⟨2, none, none⟩ (fun _ => 0)
        = Except.error (KMeansError.insufficientData 1 2) ∧
      kMeansClustering [] ⟨1, none, none⟩ (fun _ => 0)
        = Except.error KMeansError.typeError :=
  ⟨(kMeansClustering_insufficientData [[(0:ℚ)]] ⟨2, none, none⟩ (fun _ => 0)).2
      (by simp) (by simp),
    (kMeansClustering_insufficientData [] ⟨1, none, none⟩ (fun _ => 0)).1 rfl⟩

/-- Counterexample to C2 as stated: on the empty input sequence the source
reads `vectors[0].length` before the `n < k` check, so the failure is a
`TypeError`, not the `InsufficientData` error. -/
theorem kMeansClustering_empty_not_insufficientData :
    kMeansClustering [] ⟨1, none, none⟩ (fun _ => 0) = Except.error KMeansError.typeError ∧
      KMeansError.typeError ≠ KMeansError.insufficientData 0 1 :=
  ⟨rfl, by simp⟩

/-- C3.  The source performs no dimension check at all: on the mismatched
input `[[0,0], [1]]` (lengths 2 and 1) with `k = 2` the driver runs to
completion and returns an ordinary result instead of raising a
dimension-mismatch error before seeding.  On this run every array read of
the source stays in bounds — each distance loop iterates over its first
argument, which is never longer than its second here (seeding weighs `[1]`
against the centroid `[0,0]` over one component, assignment likewise, and
the run converges on the first pass, before any centroid recomputation) —
so no `NaN` arises in JavaScript and the exact-rational embedding agrees
with the source step for step at this input. -/
theorem kMeansClustering_no_dimension_check :
    kMeansClustering [[0,0],[1]] ⟨2, some 1, some (1/2)⟩ (fun _ => 0)
      = Except.ok ⟨[[0,0],[0,0]], [0,0], 1⟩ := by
  norm_num [kMeansClustering, initializeCentroids, seedLoop, minSqDistToCentroids,
    euclideanDistanceSq, pickIndex, randFloor, kmeansLoop, assignToCentroid, assignGo,
    countChanged, List.range_succ, List.countP_cons, List.countP_nil]

/-- C5.  On a valid configuration (nonempty input, `k ≤ n`, at least one
allowed iteration) the driver returns an ordinary result — reaching the
iteration cap is not an error — and the 1-indexed iteration count satisfies
`1 ≤ iterations ≤ maxIterations`. -/
theorem kMeansClustering_iteration_bounds (vectors : List Vec) (options : KMeansOptions)
    (rng : Nat → ℚ) (hv : vectors ≠ []) (hk : options.k ≤ vectors.length)
    (hmax : 1 ≤ options.maxIterations.getD 100) :
    ∃ r, kMeansClustering vectors options rng = Except.ok r ∧
      1 ≤ r.iterations ∧ r.iterations ≤ options.maxIterations.getD 100 := by
  obtain ⟨v0, t, rfl⟩ : ∃ v0 t, vectors = v0 :: t := by
    cases vectors with
    | nil => exact absurd rfl hv
    | cons v0 t => exact ⟨v0, t, rfl⟩
  simp only [kMeansClustering]
  rw [if_neg (by omega : ¬(v0 :: t).length < options.k)]
  refine ⟨_, rfl, ?_, ?_⟩
  · have h := (kmeansLoop_iterations_bounds (v0 :: t) options.k v0.length
      (options.tolerance.getD (1 / 10000)) (v0 :: t).length rng
      (options.maxIterations.getD 100)
      (initializeCentroids (v0 :: t) options.k rng 0).1
      (List.replicate (v0 :: t).length 0) 0
      (initializeCentroids (v0 :: t) options.k rng 0).2).2 hmax
    exact h
  · have h := (kmeansLoop_iterations_bounds (v0 :: t) options.k v0.length
      (options.tolerance.getD (1 / 10000)) (v0 :: t).length rng
      (options.maxIterations.getD 100)
      (initializeCentroids (v0 :: t) options.k rng 0).1
      (List.replicate (v0 :: t).length 0) 0
      (initializeCentroids (v0 :: t) options.k rng 0).2).1
    simpa using h

/-- Witness for C5: one vector, `k = 1`, cap 3; the run converges on the
first pass, so `iterations = 1` and the bounds hold. -/
theorem kMeansClustering_iteration_bounds_witness :
    ∃ r, kMeansClustering [[(0:ℚ)]] ⟨1, some 3, none⟩ (fun _ => 0) = Except.ok r ∧
      1 ≤ r.iterations ∧ r.iterations ≤ (⟨1, some 3, none⟩ : KMeansOptions).maxIterations.getD 100 :=
  kMeansClustering_iteration_bounds [[(0:ℚ)]] ⟨1, some 3, none⟩ (fun _ => 0)
    (by simp) (by simp) (by simp)

/-- C10.  With `tolerance = 0` the convergence test `changed / n < 0` can
never pass — even an iteration with no changes gives `0 < 0`, false — so on
a valid configuration the driver always executes exactly
`maxIterations` iterations and never terminates through the converged
branch. -/
theorem kMeansClustering_zero_tolerance (vectors : List Vec) (options : KMeansOptions)
    (rng : Nat → ℚ) (hv : vectors ≠ []) (hk : options.k ≤ vectors.length)
    (htol : options.tolerance = some 0) :
    ∃ r, kMeansClustering vectors options rng = Except.ok r ∧
      r.iterations = options.maxIterations.getD 100 := by
  obtain ⟨v0, t, rfl⟩ : ∃ v0 t, vectors = v0 :: t := by
    cases vectors with
    | nil => exact absurd rfl hv
    | cons v0 t => exact ⟨v0, t, rfl⟩
  simp only [kMeansClustering, htol, Option.getD_some]
  rw [if_neg (by omega : ¬(v0 :: t).length < options.k)]
  refine ⟨_, rfl, ?_⟩
  have h := kmeansLoop_iterations_zero_tol (v0 :: t) options.k v0.length
    (v0 :: t).length rng (options.maxIterations.getD 100)
    (initializeCentroids (v0 :: t) options.k rng 0).1
    (List.replicate (v0 :: t).length 0) 0
    (initializeCentroids (v0 :: t) options.k rng 0).2
  simpa using h

/-- Witness for C10: two vectors, `k = 1`, cap 2, tolerance 0.  Although the
assignment never changes after the first pass, the run still uses both
iterations. -/
theorem kMeansClustering_zero_tolerance_witness :
    ∃ r, kMeansClustering [[(0:ℚ)],[1]] ⟨1, some 2, some 0⟩ (fun _ => 0) = Except.ok r ∧
      r.iterations = (⟨1, some 2, some 0⟩ : KMeansOptions).maxIterations.getD 100 :=
  kMeansClustering_zero_tolerance [[(0:ℚ)],[1]] ⟨1, some 2, some 0⟩ (fun _ => 0)
    (by simp) (by simp) rfl

end KMeansWorker

namespace KMeansWorker

/-- The first loop of `recalculateCentroids` never changes the length of the
counts array. -/
lemma accumulate_counts_length (dim : Nat) :
    ∀ (l : List (Vec × Nat)) (counts : List Nat) (sums : List Vec),
      ((accumulate dim l (counts, sums)).1).length = counts.length := by
  intro l
  induction l with
  | nil => intro counts sums; rfl
  | cons p rest ih =>
    intro counts sums
    obtain ⟨v, c⟩ := p
    simp only [accumulate]
    rw [ih]
    simp

/-- The counts array computed by the first loop of `recalculateCentroids`
holds, at every in-range cluster index, the previous entry plus the number
of occurrences of that index among the processed assignments. -/
lemma accumulate_counts_getD (dim : Nat) :
    ∀ (l : List (Vec × Nat)) (counts : List Nat) (sums : List Vec) (i : Nat),
      i < counts.length →
      ((accumulate dim l (counts, sums)).1).getD i 0
        = counts.getD i 0 + (l.map Prod.snd).count i := by
  intro l
  induction l with
  | nil => intro counts sums i hi; simp [accumulate]
  | cons p rest ih =>
    intro counts sums i hi
    obtain ⟨v, c⟩ := p
    simp only [accumulate, List.map_cons]
    rw [ih _ _ i (by simpa using hi)]
    rw [List.count_cons]
    by_cases hc : c = i
    · subst hc
      simp [List.getD, List.getElem?_set, hi]
      omega
    · simp [List.getD, List.getElem?_set, hc]

/-- The second loop of `recalculateCentroids` emits exactly one centroid per
remaining cluster index, populated or not. -/
lemma buildCentroids_length (vectors : List Vec) (rng : Nat → ℚ) (counts : List Nat)
    (sums : List Vec) :
    ∀ (m i pos : Nat), ((buildCentroids vectors rng counts sums i m pos).1).length = m := by
  intro m
  induction m with
  | zero => intro i pos; rfl
  | succ m' ih =>
    intro i pos
    simp only [buildCentroids]
    split
    · simp [ih]
    · simp [ih]

/-- A draw `r ∈ [0, 1)` scaled by a positive array length and floored is a
valid index into the array. -/
lemma randFloor_lt (r : ℚ) (n : Nat) (_h0 : 0 ≤ r) (h1 : r < 1) (hn : 0 < n) :
    randFloor r n < n := by
  have hnq : (0 : ℚ) < (n : ℚ) := by exact_mod_cast hn
  have hmul : r * (n : ℚ) < (n : ℚ) := by
    calc r * (n : ℚ) < 1 * (n : ℚ) := mul_lt_mul_of_pos_right h1 hnq
    _ = (n : ℚ) := one_mul _
  have hfl : ⌊r * (n : ℚ)⌋ < (n : ℤ) := Int.floor_lt.2 (by exact_mod_cast hmul)
  exact (Int.toNat_lt' (by omega : n ≠ 0)).2 hfl

/-- In the second loop of `recalculateCentroids`, the centroid emitted for an
empty cluster is one of the input vectors (a copy of the randomly drawn
one). -/
lemma buildCentroids_empty_mem (vectors : List Vec) (rng : Nat → ℚ) (counts : List Nat)
    (sums : List Vec) (hv : vectors ≠ []) (hr : ∀ t, 0 ≤ rng t ∧ rng t < 1) :
    ∀ (m i pos j : Nat), j < m → counts.getD (i + j) 0 = 0 →
      ((buildCentroids vectors rng counts sums i m pos).1).getD j [] ∈ vectors := by
  intro m
  induction m with
  | zero => intro i pos j hj hc; omega
  | succ m' ih =>
    intro i pos j hj hc
    simp only [buildCentroids]
    split
    · rename_i hpos
      cases j with
      | zero =>
        rw [Nat.add_zero] at hc
        omega
      | succ j' =>
        simp only [List.getD_cons_succ]
        have harg : i + (j' + 1) = (i + 1) + j' := by omega
        rw [harg] at hc
        exact ih (i + 1) pos j' (by omega) hc
    · cases j with
      | zero =>
        simp only [List.getD_cons_zero]
        have hlen : 0 < vectors.length := List.length_pos.2 hv
        have hlt := randFloor_lt (rng pos) vectors.length (hr pos).1 (hr pos).2 hlen
        rw [List.getD_eq_getElem _ _ hlt]
        exact List.getElem_mem hlt
      | succ j' =>
        simp only [List.getD_cons_succ]
        have harg : i + (j' + 1) = (i + 1) + j' := by omega
        rw [harg] at hc
        exact ih (i + 1) (pos + 1) j' (by omega) hc

/-- C4.  On every centroid update the source produces exactly `k` centroids,
and a cluster that received zero vectors is not dropped: its centroid slot
holds a copy of a (randomly chosen) input vector. -/
theorem recalculateCentroids_k_centroids (vectors : List Vec) (assignments : List Nat)
    (k dim : Nat) (rng : Nat → ℚ) (pos : Nat)
    (hlen : assignments.length = vectors.length) (hv : vectors ≠ [])
    (hr : ∀ t, 0 ≤ rng t ∧ rng t < 1) :
    ((recalculateCentroids vectors assignments k dim rng pos).1).length = k ∧
    ∀ i, i < k → assignments.count i = 0 →
      ((recalculateCentroids vectors assignments k dim rng pos).1).getD i [] ∈ vectors := by
  simp only [recalculateCentroids]
  constructor
  · exact buildCentroids_length _ _ _ _ k 0 pos
  · intro i hik hcnt
    apply buildCentroids_empty_mem _ _ _ _ hv hr k 0 pos i hik
    rw [Nat.zero_add]
    rw [accumulate_counts_getD dim _ _ _ i (by simpa using hik)]
    rw [List.map_snd_zip _ _ (le_of_eq hlen)]
    simp [List.getD, List.getElem?_replicate, hik, hcnt]

/-- Witness for C4: two vectors both assigned to cluster 0 with `k = 2`;
the update still returns two centroids, and the empty cluster 1 holds a
copy of an input vector. -/
theorem recalculateCentroids_k_centroids_witness :
    ((recalculateCentroids [[(0:ℚ)],[4]] [0,0] 2 1 (fun _ => 0) 0).1).length = 2 ∧
      ((recalculateCentroids [[(0:ℚ)],[4]] [0,0] 2 1 (fun _ => 0) 0).1).getD 1 []
        ∈ [[(0:ℚ)],[4]] :=
  ⟨(recalculateCentroids_k_centroids [[(0:ℚ)],[4]] [0,0] 2 1 (fun _ => 0) 0
      (by simp) (by simp) (fun t => ⟨le_refl 0, by norm_num⟩)).1,
    (recalculateCentroids_k_centroids [[(0:ℚ)],[4]] [0,0] 2 1 (fun _ => 0) 0
      (by simp) (by simp) (fun t => ⟨le_refl 0, by norm_num⟩)).2 1 (by norm_num)
      (by simp [List.count_cons])⟩

end KMeansWorker

namespace KMeansWorker

/-- Counterexample to C6 as stated.  Seeding `[[0],[1]]` with `k = 2` under a
random stream that draws 0: the first centroid is `[0]`; for the second
round the weights are `[0, 1]` and the threshold is `r = 0 · 1 = 0`, so the
selection loop stops at the very first vector — `[0]`, whose squared
distance to the nearest already-chosen centroid is 0.  A zero-weight vector
is selected, and the seeding returns the duplicate centroids `[[0],[0]]`. -/
theorem initializeCentroids_picks_zero_weight :
    (initializeCentroids [[(0:ℚ)],[1]] 2 (fun _ => 0) 0).1 = [[0],[0]] ∧
      minSqDistToCentroids ((initializeCentroids [[(0:ℚ)],[1]] 2 (fun _ => 0) 0).1.getD 1 [])
        [[0]] = 0 := by
  constructor
  · norm_num [initializeCentroids, seedLoop, minSqDistToCentroids, euclideanDistanceSq,
      pickIndex, randFloor]
  · norm_num [initializeCentroids, seedLoop, minSqDistToCentroids, euclideanDistanceSq,
      pickIndex, randFloor]

/-- C6 (amended).  The selection loop of the K-Means++ seeding never picks a
vector of weight 0 provided the drawn threshold `r = random · totalWeight`
is strictly positive; when the threshold is 0 — which happens when
`Math.random()` returns 0 or when the total weight is 0 — the loop picks
the first vector regardless of its weight (see the counterexample). -/
theorem pickIndex_pos_weight :
    ∀ (ds : List ℚ) (r : ℚ) (j : Nat), (∀ d ∈ ds, 0 ≤ d) → 0 < r →
      pickIndex ds r = some j → 0 < ds.getD j 0 := by
  intro ds
  induction ds with
  | nil => intro r j hd hr hp; simp [pickIndex] at hp
  | cons d rest ih =>
    intro r j hd hr hp
    simp only [pickIndex] at hp
    by_cases hstop : r - d ≤ 0
    · rw [if_pos hstop] at hp
      obtain rfl : j = 0 := by simpa using hp.symm
      have hdr : r ≤ d := by linarith
      simpa using lt_of_lt_of_le hr hdr
    · rw [if_neg hstop] at hp
      obtain ⟨j', hj', rfl⟩ : ∃ j', pickIndex rest (r - d) = some j' ∧ j = j' + 1 := by
        cases hpk : pickIndex rest (r - d) with
        | none => rw [hpk] at hp; simp at hp
        | some j' => rw [hpk] at hp; simp at hp; exact ⟨j', rfl, hp.symm⟩
      have := ih (r - d) j' (fun x hx => hd x (List.mem_cons_of_mem d hx)) (by linarith) hj'
      simpa using this

/-- Witness for the amended C6: with weights `[0, 2]` and positive threshold
`1`, the loop picks index 1, whose weight 2 is positive. -/
theorem pickIndex_pos_weight_witness : (0:ℚ) < ([(0:ℚ), 2].getD 1 0) :=
  pickIndex_pos_weight [(0:ℚ), 2] 1 1 (by norm_num) (by norm_num)
    (by norm_num [pickIndex])

/-- The squared Euclidean norm of a vector: the quantity whose vanishing is
exactly "the vector has zero norm" (over the reals, `‖a‖ = 0 ↔ Σ aᵢ² = 0`). -/
def normSq (a : Vec) : ℚ :=
  ((List.range a.length).map (fun i => a.getD i 0 ^ 2)).sum

/-- C8.  For equal-length vectors, `cosineSimilarity` returns exactly 0
whenever either vector has zero norm: the magnitude test takes the zero
branch and no division is performed. -/
theorem cosineSimilarity_zero_norm (a b : Vec) (hab : a.length = b.length)
    (h : normSq a = 0 ∨ normSq b = 0) : cosineSimilarity a b = 0 := by
  have hsplit : ((List.range a.length).map (fun i => a.getD i 0 ^ 2)).sum = normSq a := rfl
  have hsplitb : ((List.range a.length).map (fun i => b.getD i 0 ^ 2)).sum = normSq b := by
    rw [normSq, hab]
  simp only [cosineSimilarity, hsplit, hsplitb]
  rcases h with h | h
  · rw [h]
    have : Rat.sqrt 0 = 0 := by simp [Rat.sqrt]
    rw [this, zero_mul]
    simp
  · rw [h]
    have : Rat.sqrt 0 = 0 := by simp [Rat.sqrt]
    rw [this, mul_zero]
    simp

/-- Witness for C8: the zero vector against `[3,4]` yields similarity 0. -/
theorem cosineSimilarity_zero_norm_witness : cosineSimilarity [0,0] [3,4] = 0 :=
  cosineSimilarity_zero_norm [0,0] [3,4] rfl
    (Or.inl (by norm_num [normSq, List.range_succ]))

end KMeansWorker

namespace KMeansWorker

/-- The entry of `getClusterRepresentatives` for an in-range cluster index,
spelled out: the sorted, truncated, wrapped member list of that cluster. -/
lemma getClusterRepresentatives_getD {α : Type} [Inhabited α] (vectors : List Vec)
    (posts : List α) (centroids : List Vec) (assignments : List Nat) (topN c : Nat)
    (hc : c < centroids.length) :
    (getClusterRepresentatives vectors posts centroids assignments topN).getD c []
      = ((List.mergeSort ((List.range posts.length).filterMap (fun i =>
            if assignments[i]? = some c then
              some (posts.getD i default,
                cosineSimilarity (vectors.getD i []) (centroids.getD c []))
            else none)) (fun x y => decide (y.2 ≤ x.2))).take topN).map
          (fun cp => ⟨c, [cp.1], cp.2⟩) := by
  simp [getClusterRepresentatives, List.getD, List.getElem?_map, List.getElem?_range, hc]

/-- C7.  For every in-range cluster index, the representative list returned
by `getClusterRepresentatives` is sorted in non-increasing order of
similarity, and its length is `min topN (number of members assigned to the
cluster)` — in particular a memberless cluster yields the empty list rather
than an error. -/
theorem getClusterRepresentatives_sorted_length {α : Type} [Inhabited α]
    (vectors : List Vec) (posts : List α) (centroids : List Vec) (assignments : List Nat)
    (topN c : Nat) (hc : c < centroids.length) :
    List.Pairwise (fun x y : Representative α => y.similarity ≤ x.similarity)
      ((getClusterRepresentatives vectors posts centroids assignments topN).getD c []) ∧
    ((getClusterRepresentatives vectors posts centroids assignments topN).getD c []).length
      = min topN (memberCount posts assignments c) := by
  rw [getClusterRepresentatives_getD vectors posts centroids assignments topN c hc]
  constructor
  · have hs : (List.mergeSort ((List.range posts.length).filterMap (fun i =>
          if assignments[i]? = some c then
            some (posts.getD i default,
              cosineSimilarity (vectors.getD i []) (centroids.getD c []))
          else none)) (fun x y => decide (y.2 ≤ x.2))).Pairwise
        (fun x y : α × ℚ => decide (y.2 ≤ x.2)) :=
      List.sorted_mergeSort
        (by
          intro a b c hab hbc
          simp only [decide_eq_true_eq] at *
          exact le_trans hbc hab)
        (by
          intro a b
          simpa using le_total b.2 a.2)
        _
    have hs' := hs.imp (fun h => of_decide_eq_true h)
    have htk := hs'.sublist (List.take_sublist topN _)
    exact List.pairwise_map.2 htk
  · rw [List.length_map, List.length_take, List.length_mergeSort,
      List.length_filterMap_eq_countP, memberCount]
    congr 1
    apply List.countP_congr
    intro i _
    by_cases h : assignments[i]? = some c
    · simp [h]
    · simp [h]

/-- Witness for C7: one centroid, two members, `topN = 1` — the returned
list for cluster 0 is sorted and has length `min 1 2 = 1`. -/
theorem getClusterRepresentatives_sorted_length_witness :
    List.Pairwise (fun x y : Representative Nat => y.similarity ≤ x.similarity)
      ((getClusterRepresentatives [[(1:ℚ)],[2]] [10, 20] [[1]] [0,0] 1).getD 0 []) ∧
    ((getClusterRepresentatives [[(1:ℚ)],[2]] [10, 20] [[1]] [0,0] 1).getD 0 []).length
      = min 1 (memberCount [10, 20] [0,0] 0) :=
  getClusterRepresentatives_sorted_length [[(1:ℚ)],[2]] [10, 20] [[1]] [0,0] 1 0
    (by norm_num)

end KMeansWorker
